import Mathlib

/-!
Verification of the conversational task-management backend
(`backend/app/agent/agent.py` and `backend/app/routes/chat.py`).

The Python source is shallowly embedded: the tool-call reconciliation logic
of `run_agent` becomes pure functions over an explicit model of the engine
result object, and the `/api/chat` request handler becomes a pure function
from a database snapshot, the request, and the engine outcome to the new
database snapshot together with the HTTP-level result.
-/

/-- JSON-like values appearing in tool-call argument / result mappings. -/
inductive JValue where
  | s : String → JValue
  | n : Nat → JValue
deriving DecidableEq, Repr

/-- A JSON-object-like mapping from keys to values. -/
abbrev JMap := List (String × JValue)

/-- A normalized tool-call record `{tool, args, result}` as built by
`run_agent` in `agent.py`. -/
structure ToolCallRecord where
  tool : String
  args : JMap
  result : JMap
deriving DecidableEq, Repr

/-- An engine-reported tool-call object (`tc` in `agent.py`).  The code
reads its `name` and `arguments` attributes defensively via `getattr`, so
both are optional here; `reprStr` models Python's `str(tc)` fallback.
The `reported` field models any per-call result the engine may attach to
such an object: the source never reads it. -/
structure EngineTC where
  name : Option String
  arguments : Option JMap
  reported : Option JMap
  reprStr : String
deriving DecidableEq, Repr

/-- The payload of a `function_call_output` trace item: either a dict
(kept as-is) or any other value (wrapped as `{"output": str(...)}`). -/
inductive OutputVal where
  | dict : JMap → OutputVal
  | prim : String → OutputVal
deriving DecidableEq, Repr

/-- `item.output if isinstance(item.output, dict) else {"output": str(item.output)}`
(`agent.py` line 210). -/
def resultOfOutput : OutputVal → JMap
  | .dict m => m
  | .prim s => [("output", JValue.s s)]

/-- One entry of the engine's itemized execution trace (`result.new_items`).
The source dispatches on `item.type` and on the presence of a legacy
`tool_calls` attribute in an `if/elif` chain; the constructors mirror the
shapes that chain distinguishes.  A list element of `result.tool_calls`
or `item.tool_calls` may itself be Python `None`, hence `Option EngineTC`. -/
inductive TraceItem where
  | functionCall (name : Option String) (arguments : Option JMap) (reprStr : String)
  | legacy (tcs : List (Option EngineTC))
  | output (payload : Option OutputVal)
  | other
deriving DecidableEq, Repr

/-- The engine result object returned by `Runner.run`.  `toolCalls` is
`none` when the `tool_calls` attribute is absent or `None` (both falsy in
the source's `hasattr(result, 'tool_calls') and result.tool_calls` test);
an empty list is kept as `some []` because emptiness is also a falsiness
case tested by the same guard. -/
structure EngineResult where
  toolCalls : Option (List (Option EngineTC))
  newItems : Option (List TraceItem)
  finalOutput : String
deriving DecidableEq, Repr

/-- Record built from a direct `result.tool_calls` element
(`agent.py` lines 179-184): `getattr(tc, 'name', str(tc)) if tc else ""`,
`getattr(tc, 'arguments', {}) if tc else {}`, `result` always `{}`. -/
def recordOfEngineTC : Option EngineTC → ToolCallRecord
  | none => ⟨"", [], []⟩
  | some tc => ⟨tc.name.getD tc.reprStr, tc.arguments.getD [], []⟩

/-- Record built from a legacy `item.tool_calls` element
(`agent.py` lines 200-205): here a Python `None` element falls through
`hasattr` and becomes `str(None) = "None"`, and `result` is always `{}`. -/
def recordOfLegacyTC : Option EngineTC → ToolCallRecord
  | none => ⟨"None", [], []⟩
  | some tc => ⟨tc.name.getD tc.reprStr, tc.arguments.getD [], []⟩

/-- `tool_calls[-1]["result"] = res`: replace the result of the last
record in the list (no-op on the empty list). -/
def setLastResult : List ToolCallRecord → JMap → List ToolCallRecord
  | [], _ => []
  | [a], res => [{ a with result := res }]
  | a :: b :: rest, res => a :: setLastResult (b :: rest) res

/-- One iteration of the `for i, item in enumerate(result.new_items)` loop
(`agent.py` lines 187-210), acting on the accumulated `tool_calls` list. -/
def processTraceItem (acc : List ToolCallRecord) : TraceItem → List ToolCallRecord
  | .functionCall name arguments reprStr =>
      acc ++ [⟨name.getD reprStr, arguments.getD [], []⟩]
  | .legacy tcs => acc ++ tcs.map recordOfLegacyTC
  | .output payload =>
      match payload with
      | some p => if acc.isEmpty then acc else setLastResult acc (resultOfOutput p)
      | none => acc
  | .other => acc

/-- The trace-scanning fallback: fold the loop body over `new_items`. -/
def extractFromTrace (items : List TraceItem) : List ToolCallRecord :=
  items.foldl processTraceItem []

/-- Priority dispatch of `run_agent` (`agent.py` lines 176-216): the direct
`tool_calls` list if present and non-empty, else the `new_items` trace
scan, else no discoverable calls (the final `else` only prints). -/
def extractToolCalls (r : EngineResult) : List ToolCallRecord :=
  match r.toolCalls with
  | some tcs =>
      if tcs.isEmpty then
        match r.newItems with
        | some items => extractFromTrace items
        | none => []
      else tcs.map recordOfEngineTC
  | none =>
      match r.newItems with
      | some items => extractFromTrace items
      | none => []

/-- The synthetic record built when tasks changed but no tool calls were
reported (`agent.py` lines 224-228). -/
def syntheticChangeRecord (before after : Nat) : ToolCallRecord :=
  ⟨"task_change_detected",
   [("change_type", JValue.s "unknown"),
    ("before_count", JValue.n before),
    ("after_count", JValue.n after)],
   [("message", JValue.s "Task state changed")]⟩

/-- Reconciliation against the before/after task count
(`agent.py` lines 218-231): `if not tool_calls and tasks_changed`. -/
def reconcileToolCalls (before after : Nat)
    (extracted : List ToolCallRecord) : List ToolCallRecord :=
  if extracted.isEmpty && before != after then
    [syntheticChangeRecord before after]
  else extracted

/-- The tool-call ledger `run_agent` returns for a turn, given the task
counts observed immediately before and after the engine ran. -/
def runAgentToolCalls (before after : Nat) (r : EngineResult) : List ToolCallRecord :=
  reconcileToolCalls before after (extractToolCalls r)

/-! ## Data model and the `/api/chat` handler (`routes/chat.py`) -/

/-- A `conversations` row (`models.py`, class `Conversation`).  Identifiers
and timestamps are opaque in the source (UUIDs / datetimes); they are
modelled by naturals. -/
structure Conversation where
  id : Nat
  user_id : Nat
  title : Option String
  created_at : Nat
  updated_at : Nat
deriving DecidableEq, Repr

/-- A `messages` row (`models.py`, class `Message`). -/
structure Message where
  conversation_id : Nat
  role : String
  content : String
  created_at : Nat
deriving DecidableEq, Repr

/-- The durable store: the two tables this core persists to.  Row lists
are in insertion order, as the relational store appends them. -/
structure Db where
  conversations : List Conversation
  messages : List Message
deriving DecidableEq, Repr

/-- `MAX_HISTORY_MESSAGES = 20` (`chat.py` line 48). -/
def MAX_HISTORY_MESSAGES : Nat := 20

/-- `AI_TIMEOUT_SECONDS = 30` (`chat.py` line 49). -/
def AI_TIMEOUT_SECONDS : Nat := 30

/-- The descending `ORDER BY created_at DESC` comparison used by the
history query. -/
def createdDesc (a b : Message) : Prop := b.created_at ≤ a.created_at

instance : DecidableRel createdDesc := fun _ _ => Nat.decLe _ _

instance : IsTotal Message createdDesc := ⟨fun a b => Nat.le_total b.created_at a.created_at⟩

instance : IsTrans Message createdDesc :=
  ⟨fun _ _ _ h h' => Nat.le_trans h' h⟩

/-- The History Windower (`chat.py` lines 114-123): messages of the
conversation, ordered by `created_at` descending, limited to
`MAX_HISTORY_MESSAGES`, then reversed to chronological order. -/
def windowHistory (msgs : List Message) (cid : Nat) : List Message :=
  ((List.insertionSort createdDesc (msgs.filter (fun m => m.conversation_id == cid))).take
      MAX_HISTORY_MESSAGES).reverse

/-- One `{role, content}` entry of the message array handed to the engine. -/
structure ChatMsg where
  role : String
  content : String
deriving DecidableEq, Repr

/-- The Turn Builder (`agent.py` lines 139-153): copy each history entry's
role and content in order, then append the current user message last.
The `if history and len(history) > 0` guard of the source is the
first branch of the match (a `None`/empty history contributes nothing). -/
def buildTurn (history : List ChatMsg) (message : String) : List ChatMsg :=
  (match history with
   | [] => []
   | h => h.map (fun m => ⟨m.role, m.content⟩)) ++ [⟨"user", message⟩]

/-- The request body (`schemas.py`, class `ChatRequest`). -/
structure ChatRequest where
  message : String
  conversation_id : Option Nat
deriving DecidableEq, Repr

/-- The response body (`schemas.py`, class `ChatResponse`). -/
structure ChatResponse where
  response : String
  conversation_id : Nat
  tool_calls : List ToolCallRecord
deriving DecidableEq, Repr

/-- An `HTTPException`: status code plus `detail` text. -/
structure HttpError where
  statusCode : Nat
  detail : String
deriving DecidableEq, Repr

/-- `HTTPException(404, "Conversation not found")` (`chat.py` lines 98-101). -/
def notFoundError : HttpError := ⟨404, "Conversation not found"⟩

/-- `HTTPException(504, ...)` raised on `asyncio.TimeoutError`
(`chat.py` lines 168-171). -/
def timeoutError : HttpError := ⟨504, "AI service timeout. Please try again."⟩

/-- `HTTPException(500, ...)` raised on any other engine exception
(`chat.py` lines 175-178); the detail is a fixed generic retry message. -/
def engineFailureError : HttpError :=
  ⟨500, "I'm having trouble processing your request. Please try again."⟩

/-- Outcome of awaiting `run_agent` under `asyncio.wait_for`: success
(with the engine result object and the task counts `run_agent` observed
around the engine run), deadline expiry, or any other exception carrying
its message text. -/
inductive EngineOutcome where
  | success (before after : Nat) (r : EngineResult)
  | timeout
  | failure (err : String)
deriving DecidableEq, Repr

/-- The ownership-scoped conversation lookup
(`chat.py` lines 90-95, 278-283, 341-346):
`SELECT ... WHERE id = cid AND user_id = current_user.id`, first match. -/
def findOwnedConversation (db : Db) (userId cid : Nat) : Option Conversation :=
  db.conversations.find? (fun c => c.id == cid && c.user_id == userId)

/-- `session.add(conversation)` on an already-present row: replace the row
with the matching id. -/
def updateConv (l : List Conversation) (c : Conversation) : List Conversation :=
  l.map (fun x => if x.id == c.id then c else x)

/-- Step 4 (`chat.py` lines 138-145): commit the user's message before the
engine is invoked. -/
def storeUserMessage (db : Db) (conv : Conversation) (content : String) (t : Nat) : Db :=
  { db with messages := db.messages ++ [⟨conv.id, "user", content, t⟩] }

/-- Title auto-generation (`chat.py` lines 148-151): if the conversation
has no title yet, set it to the message truncated to 100 characters and
commit.  This happens before the engine call. -/
def maybeSetTitle (db : Db) (conv : Conversation) (message : String) :
    Db × Conversation :=
  if conv.title = none then
    ({ db with
        conversations :=
          updateConv db.conversations { conv with title := some (message.take 100) } },
     { conv with title := some (message.take 100) })
  else (db, conv)

/-- Step 7 (`chat.py` lines 183-194): commit the assistant message, then
advance the conversation's `updated_at`, in one commit.  `t` is the
assistant message's creation time; `updated_at` is taken slightly later. -/
def finishTurn (db : Db) (conv : Conversation) (text : String) (t : Nat) : Db :=
  { db with
      messages := db.messages ++ [⟨conv.id, "assistant", text, t⟩],
      conversations := updateConv db.conversations { conv with updated_at := t + 1 } }

/-- The `/api/chat` handler `send_chat_message` (`chat.py` lines 52-217).

Inputs beyond the request: `outcome` stands for what awaiting the engine
produced, `freshId` for the UUID generated when a new conversation row is
created, and `t` for the wall clock at the start of the request (each
later `datetime.utcnow()` call is a successive tick).

The returned `Db` is the durable state after the handler finishes: an
`HTTPException` aborts the handler but does not undo commits already
made, so the error cases return the database as committed so far. -/
def sendChatMessage (db : Db) (userId : Nat) (req : ChatRequest)
    (outcome : EngineOutcome) (freshId t : Nat) :
    Db × Except HttpError ChatResponse :=
  match
    (match req.conversation_id with
     | some cid => (findOwnedConversation db userId cid).map (fun c => (db, c))
     | none =>
         some ({ db with
                   conversations :=
                     db.conversations ++ [⟨freshId, userId, none, t, t⟩] },
               (⟨freshId, userId, none, t, t⟩ : Conversation)))
  with
  | none => (db, Except.error notFoundError)
  | some (db1, conv) =>
      let db2 := storeUserMessage db1 conv req.message (t + 1)
      match maybeSetTitle db2 conv req.message with
      | (db3, conv3) =>
        match outcome with
        | .timeout => (db3, Except.error timeoutError)
        | .failure _ => (db3, Except.error engineFailureError)
        | .success before after r =>
            (finishTurn db3 conv3 r.finalOutput (t + 2),
             Except.ok ⟨r.finalOutput, conv.id,
                        runAgentToolCalls before after r⟩)

/-- The body of `GET /api/conversations/{id}` (`chat.py` lines 256-316):
ownership-scoped lookup, 404 on miss, else the conversation with its
windowed messages. -/
def getConversation (db : Db) (userId cid : Nat) :
    Except HttpError (Conversation × List Message) :=
  match findOwnedConversation db userId cid with
  | none => Except.error notFoundError
  | some c => Except.ok (c, windowHistory db.messages c.id)

/-! ## Reconciler theorems -/

/-- Modelled from the spec's words (§4.4 step 2b), for comparison with the
source's `extractFromTrace`: "the most recent unmatched invocation record
receives the next output record's payload as its `result`" — walking back
from the end, the first record whose result is still empty receives the
payload. -/
def setFirstUnmatched : List ToolCallRecord → JMap → List ToolCallRecord
  | [], _ => []
  | a :: rest, res =>
      if a.result.isEmpty then { a with result := res } :: rest
      else a :: setFirstUnmatched rest res

/-- Modelled from the spec's words (§4.4 step 2b): one trace step where an
output payload goes to the most recent invocation record without a result. -/
def specPairStep (acc : List ToolCallRecord) : TraceItem → List ToolCallRecord
  | .functionCall name arguments reprStr =>
      acc ++ [⟨name.getD reprStr, arguments.getD [], []⟩]
  | .legacy tcs => acc ++ tcs.map recordOfLegacyTC
  | .output (some p) => (setFirstUnmatched acc.reverse (resultOfOutput p)).reverse
  | .output none => acc
  | .other => acc

/-- Modelled from the spec's words (§4.4 step 2b): trace scanning with
most-recent-unmatched pairing. -/
def specExtractFromTrace (items : List TraceItem) : List ToolCallRecord :=
  items.foldl specPairStep []

/-- A trace with two invocations followed by two outputs: the source
assigns both outputs to the last record (the second overwriting the
first), leaving the first record without any result. -/
def c4Trace : List TraceItem :=
  [TraceItem.functionCall (some "add_task") (some []) "ra",
   TraceItem.functionCall (some "list_tasks") (some []) "rb",
   TraceItem.output (some (OutputVal.prim "out1")),
   TraceItem.output (some (OutputVal.prim "out2"))]

/-- C4 counterexample: on `c4Trace` the code pairs outputs with the last
record unconditionally (overwriting), not with the most recent record
that does not yet have a result, so the claimed pairing fails. -/
theorem c4_pairing_counterexample :
    extractFromTrace c4Trace
      = [⟨"add_task", [], []⟩,
         ⟨"list_tasks", [], [("output", JValue.s "out2")]⟩]
    ∧ specExtractFromTrace c4Trace
      = [⟨"add_task", [], [("output", JValue.s "out2")]⟩,
         ⟨"list_tasks", [], [("output", JValue.s "out1")]⟩]
    ∧ extractFromTrace c4Trace ≠ specExtractFromTrace c4Trace := by
  refine ⟨rfl, rfl, ?_⟩
  decide

/-- C4 (amended): in the trace-scanning branch every entry tagged as a
function invocation becomes one record, and each output entry's payload
is assigned as the result of the *last* record in the list so far —
overwriting any result that record already had; an output entry arriving
while no record exists is dropped. -/
theorem c4_trace_scan_last_record (items : List TraceItem) (p : OutputVal)
    (name : Option String) (arguments : Option JMap) (reprStr : String)
    (h : extractFromTrace items ≠ []) :
    extractFromTrace (items ++ [TraceItem.functionCall name arguments reprStr])
      = extractFromTrace items ++ [⟨name.getD reprStr, arguments.getD [], []⟩]
    ∧ extractFromTrace (items ++ [TraceItem.output (some p)])
      = setLastResult (extractFromTrace items) (resultOfOutput p) := by
  have hcat : ∀ x : TraceItem,
      extractFromTrace (items ++ [x]) = processTraceItem (extractFromTrace items) x := by
    intro x
    unfold extractFromTrace
    rw [List.foldl_append]
    rfl
  constructor
  · rw [hcat]
    rfl
  · rw [hcat]
    have hne : (extractFromTrace items).isEmpty = false := by
      cases hx : extractFromTrace items with
      | nil => exact absurd hx h
      | cons a l => rfl
    simp [processTraceItem, hne]

/-- Witness for `c4_trace_scan_last_record` at a concrete one-record trace. -/
theorem c4_trace_scan_last_record_witness :
    extractFromTrace [TraceItem.functionCall (some "add_task") (some []) "r"] ≠ []
    ∧ (extractFromTrace
        ([TraceItem.functionCall (some "add_task") (some []) "r"]
          ++ [TraceItem.functionCall (some "b") none "rb"])
        = extractFromTrace [TraceItem.functionCall (some "add_task") (some []) "r"]
            ++ [⟨(some "b").getD "rb", (none : Option JMap).getD [], []⟩]
      ∧ extractFromTrace
          ([TraceItem.functionCall (some "add_task") (some []) "r"]
            ++ [TraceItem.output (some (OutputVal.prim "o"))])
          = setLastResult
              (extractFromTrace [TraceItem.functionCall (some "add_task") (some []) "r"])
              (resultOfOutput (OutputVal.prim "o"))) :=
  ⟨by decide,
   c4_trace_scan_last_record [TraceItem.functionCall (some "add_task") (some []) "r"]
     (OutputVal.prim "o") (some "b") none "rb" (by decide)⟩

/-- C1: when extraction yields zero records and the before/after task
count differs, reconciliation returns exactly one synthetic record with
tool `"task_change_detected"` whose args contain both counts. -/
theorem c1_synthetic_change_record (before after : Nat) (r : EngineResult)
    (hex : extractToolCalls r = []) (hne : before ≠ after) :
    runAgentToolCalls before after r = [syntheticChangeRecord before after]
    ∧ (syntheticChangeRecord before after).tool = "task_change_detected"
    ∧ ("before_count", JValue.n before) ∈ (syntheticChangeRecord before after).args
    ∧ ("after_count", JValue.n after) ∈ (syntheticChangeRecord before after).args := by
  refine ⟨?_, rfl, ?_, ?_⟩
  · unfold runAgentToolCalls reconcileToolCalls
    rw [hex]
    simp [hne]
  · simp [syntheticChangeRecord]
  · simp [syntheticChangeRecord]

/-- An engine result with no tool-call evidence in any shape. -/
def emptyEngineResult : EngineResult := ⟨none, none, "Done!"⟩

/-- Witness for `c1_synthetic_change_record` at counts 0 → 1. -/
theorem c1_synthetic_change_record_witness :
    runAgentToolCalls 0 1 emptyEngineResult = [syntheticChangeRecord 0 1]
    ∧ (syntheticChangeRecord 0 1).tool = "task_change_detected"
    ∧ ("before_count", JValue.n 0) ∈ (syntheticChangeRecord 0 1).args
    ∧ ("after_count", JValue.n 1) ∈ (syntheticChangeRecord 0 1).args :=
  c1_synthetic_change_record 0 1 emptyEngineResult rfl (by decide)

/-- C3: when extraction yields at least one record, reconciliation
returns exactly those records — nothing added, removed or altered —
for every before/after count pair. -/
theorem c3_nonempty_extraction_trusted (before after : Nat) (r : EngineResult)
    (h : extractToolCalls r ≠ []) :
    runAgentToolCalls before after r = extractToolCalls r := by
  unfold runAgentToolCalls reconcileToolCalls
  cases hx : extractToolCalls r with
  | nil => exact absurd hx h
  | cons a l => rfl

/-- An engine-reported tool call carrying a per-call result the source
never reads. -/
def exEngineTC : EngineTC :=
  ⟨some "add_task", some [("title", JValue.s "Buy milk")],
   some [("status", JValue.s "created")], "FunctionToolCall"⟩

/-- An engine result using the direct `tool_calls` shape. -/
def exDirectResult : EngineResult := ⟨some [some exEngineTC], none, "Added!"⟩

/-- Witness for `c3_nonempty_extraction_trusted` with an unchanged count. -/
theorem c3_nonempty_extraction_trusted_witness :
    runAgentToolCalls 2 2 exDirectResult = extractToolCalls exDirectResult :=
  c3_nonempty_extraction_trusted 2 2 exDirectResult (by decide)

/-- C10: in the direct invocation-list branch every record is returned
with an empty result mapping — the `reported` per-call result on the
engine object is discarded (the source writes a literal `{}`). -/
theorem c10_direct_branch_empty_results (r : EngineResult)
    (tcs : List (Option EngineTC)) (h : r.toolCalls = some tcs)
    (hne : tcs ≠ []) :
    extractToolCalls r = tcs.map recordOfEngineTC
    ∧ ∀ rec ∈ extractToolCalls r, rec.result = [] := by
  have h1 : extractToolCalls r = tcs.map recordOfEngineTC := by
    unfold extractToolCalls
    rw [h]
    simp only [List.isEmpty_iff]
    rw [if_neg]
    simp [hne]
  refine ⟨h1, ?_⟩
  rw [h1]
  intro rec hrec
  obtain ⟨tc, _, rfl⟩ := List.mem_map.mp hrec
  cases tc <;> rfl

/-- Witness for `c10_direct_branch_empty_results`: the engine object
carries a non-empty reported result, yet the record's result is `{}`. -/
theorem c10_direct_branch_empty_results_witness :
    extractToolCalls exDirectResult = [some exEngineTC].map recordOfEngineTC
    ∧ ∀ rec ∈ extractToolCalls exDirectResult, rec.result = [] :=
  c10_direct_branch_empty_results exDirectResult [some exEngineTC] rfl (by decide)

/-! ## Handler theorems -/

set_option maxRecDepth 8000

/-- Unfolding of `sendChatMessage` once the ownership lookup has found the
conversation. -/
theorem sendChat_found_eq (db : Db) (userId cid : Nat) (msg : String)
    (outcome : EngineOutcome) (freshId t : Nat) (conv : Conversation)
    (hfind : findOwnedConversation db userId cid = some conv) :
    sendChatMessage db userId ⟨msg, some cid⟩ outcome freshId t =
      match outcome with
      | .timeout =>
          ((maybeSetTitle (storeUserMessage db conv msg (t + 1)) conv msg).1,
           Except.error timeoutError)
      | .failure _ =>
          ((maybeSetTitle (storeUserMessage db conv msg (t + 1)) conv msg).1,
           Except.error engineFailureError)
      | .success before after r =>
          (finishTurn (maybeSetTitle (storeUserMessage db conv msg (t + 1)) conv msg).1
             (maybeSetTitle (storeUserMessage db conv msg (t + 1)) conv msg).2
             r.finalOutput (t + 2),
           Except.ok ⟨r.finalOutput, conv.id, runAgentToolCalls before after r⟩) := by
  simp only [sendChatMessage, hfind, Option.map_some]
  rfl

/-- Every row of `updateConv l c` with the updated id is `c` itself, and
rows with other ids come from `l` untouched. -/
theorem updateConv_mem (l : List Conversation) (c x : Conversation)
    (hx : x ∈ updateConv l c) :
    (x.id = c.id → x = c) ∧ (x.id ≠ c.id → x ∈ l) := by
  unfold updateConv at hx
  obtain ⟨a, ha, heq⟩ := List.mem_map.mp hx
  by_cases hac : a.id = c.id
  · rw [if_pos (beq_iff_eq.mpr hac)] at heq
    subst heq
    exact ⟨fun _ => rfl, fun hne => absurd rfl hne⟩
  · rw [if_neg (fun hb => hac (beq_iff_eq.mp hb))] at heq
    subst heq
    exact ⟨fun h => absurd h hac, fun _ => ha⟩

/-- All conversation fields except the title, as a tuple. -/
def convMeta (c : Conversation) : Nat × Nat × Nat × Nat :=
  (c.id, c.user_id, c.created_at, c.updated_at)

/-- Re-titling a stored conversation row changes no other column of any
row (ids are primary keys, hence the `Nodup` hypothesis). -/
theorem updateConv_retitle_map_meta (l : List Conversation) (conv : Conversation)
    (title? : Option String) (hmem : conv ∈ l)
    (hnodup : (l.map Conversation.id).Nodup) :
    (updateConv l { conv with title := title? }).map convMeta = l.map convMeta := by
  unfold updateConv
  rw [List.map_map]
  apply List.map_congr_left
  intro x hx
  by_cases hxc : x.id = conv.id
  · have hxe : x = conv := List.inj_on_of_nodup_map hnodup hx hmem hxc
    subst hxe
    simp only [Function.comp_apply]
    rw [if_pos (beq_iff_eq.mpr hxc)]
    rfl
  · simp only [Function.comp_apply]
    rw [if_neg (fun hb => hxc (beq_iff_eq.mp hb))]

/-- After storing the user message and (possibly) setting the title, the
message table has gained exactly the user's message. -/
theorem maybeSetTitle_store_messages (db : Db) (conv : Conversation)
    (msg : String) (t : Nat) :
    (maybeSetTitle (storeUserMessage db conv msg t) conv msg).1.messages
      = db.messages ++ [⟨conv.id, "user", msg, t⟩] := by
  unfold maybeSetTitle storeUserMessage
  by_cases h : conv.title = none
  · rw [if_pos h]
  · rw [if_neg h]

/-- After storing the user message and (possibly) setting the title, every
conversation row keeps its id, owner, and both timestamps. -/
theorem maybeSetTitle_store_convMeta (db : Db) (conv : Conversation)
    (msg : String) (t : Nat) (hmem : conv ∈ db.conversations)
    (hnodup : (db.conversations.map Conversation.id).Nodup) :
    (maybeSetTitle (storeUserMessage db conv msg t) conv msg).1.conversations.map convMeta
      = db.conversations.map convMeta := by
  unfold maybeSetTitle storeUserMessage
  by_cases h : conv.title = none
  · rw [if_pos h]
    exact updateConv_retitle_map_meta db.conversations conv _ hmem hnodup
  · rw [if_neg h]

/-- C2: if the engine times out or raises, the turn leaves behind exactly
the user's message (committed before the engine was invoked), no
assistant message, a typed error, and every conversation row's
`updated_at` (with id, owner and `created_at`) unchanged. -/
theorem c2_engine_failure_durability (db : Db) (userId cid : Nat) (msg : String)
    (outcome : EngineOutcome) (freshId t : Nat) (conv : Conversation)
    (hfind : findOwnedConversation db userId cid = some conv)
    (hnodup : (db.conversations.map Conversation.id).Nodup)
    (hout : outcome = EngineOutcome.timeout ∨ ∃ e, outcome = EngineOutcome.failure e) :
    (sendChatMessage db userId ⟨msg, some cid⟩ outcome freshId t).1.messages
      = db.messages ++ [⟨conv.id, "user", msg, t + 1⟩]
    ∧ (∃ err, (sendChatMessage db userId ⟨msg, some cid⟩ outcome freshId t).2
        = Except.error err)
    ∧ (sendChatMessage db userId ⟨msg, some cid⟩ outcome freshId t).1.conversations.map
        convMeta = db.conversations.map convMeta := by
  have hmem : conv ∈ db.conversations := List.mem_of_find?_eq_some hfind
  rcases hout with h | ⟨e, h⟩ <;> subst h <;>
    rw [sendChat_found_eq db userId cid msg _ freshId t conv hfind] <;>
    exact ⟨maybeSetTitle_store_messages db conv msg (t + 1),
           ⟨_, rfl⟩,
           maybeSetTitle_store_convMeta db conv msg (t + 1) hmem hnodup⟩

/-- A stored conversation already titled, with one prior turn. -/
def exConv : Conversation := ⟨1, 7, some "hi", 0, 3⟩

/-- A store holding `exConv` and its two prior messages. -/
def exDb : Db := ⟨[exConv], [⟨1, "user", "hi", 1⟩, ⟨1, "assistant", "hello", 2⟩]⟩

/-- Witness for `c2_engine_failure_durability` at a concrete timed-out turn. -/
theorem c2_engine_failure_durability_witness :
    (sendChatMessage exDb 7 ⟨"buy milk", some 1⟩ EngineOutcome.timeout 9 10).1.messages
      = exDb.messages ++ [⟨exConv.id, "user", "buy milk", 10 + 1⟩]
    ∧ (∃ err, (sendChatMessage exDb 7 ⟨"buy milk", some 1⟩ EngineOutcome.timeout 9 10).2
        = Except.error err)
    ∧ (sendChatMessage exDb 7 ⟨"buy milk", some 1⟩ EngineOutcome.timeout 9 10).1.conversations.map
        convMeta = exDb.conversations.map convMeta :=
  c2_engine_failure_durability exDb 7 1 "buy milk" EngineOutcome.timeout 9 10 exConv
    rfl (by decide) (Or.inl rfl)

/-- C6: the engine call runs under the fixed 30-second deadline constant;
deadline expiry maps to the distinct 504 timeout error, and every other
engine failure maps to the 500 error whose user-facing detail is one
fixed generic retry string — the same for every underlying exception
`e`, so no exception text ever reaches the user. -/
theorem c6_deadline_and_error_mapping (db : Db) (userId cid : Nat) (msg : String)
    (freshId t : Nat) (conv : Conversation)
    (hfind : findOwnedConversation db userId cid = some conv) :
    AI_TIMEOUT_SECONDS = 30
    ∧ (sendChatMessage db userId ⟨msg, some cid⟩ EngineOutcome.timeout freshId t).2
        = Except.error timeoutError
    ∧ (∀ e, (sendChatMessage db userId ⟨msg, some cid⟩ (EngineOutcome.failure e) freshId t).2
        = Except.error engineFailureError)
    ∧ timeoutError.statusCode = 504
    ∧ engineFailureError.statusCode = 500
    ∧ engineFailureError.detail
        = "I'm having trouble processing your request. Please try again." := by
  refine ⟨rfl, ?_, ?_, rfl, rfl, rfl⟩
  · rw [sendChat_found_eq db userId cid msg _ freshId t conv hfind]
  · intro e
    rw [sendChat_found_eq db userId cid msg _ freshId t conv hfind]

/-- Witness for `c6_deadline_and_error_mapping` on the concrete store. -/
theorem c6_deadline_and_error_mapping_witness :
    AI_TIMEOUT_SECONDS = 30
    ∧ (sendChatMessage exDb 7 ⟨"buy milk", some 1⟩ EngineOutcome.timeout 9 10).2
        = Except.error timeoutError
    ∧ (∀ e, (sendChatMessage exDb 7 ⟨"buy milk", some 1⟩ (EngineOutcome.failure e) 9 10).2
        = Except.error engineFailureError)
    ∧ timeoutError.statusCode = 504
    ∧ engineFailureError.statusCode = 500
    ∧ engineFailureError.detail
        = "I'm having trouble processing your request. Please try again." :=
  c6_deadline_and_error_mapping exDb 7 1 "buy milk" 9 10 exConv rfl

/-- C7: a conversation id with no row owned by the requesting user — be
it absent altogether or owned by a different user — yields the one 404
not-found response on both read and chat endpoints, literally equal to
the response for an id that exists in no store at all (the empty store),
and never a 403. -/
theorem c7_foreign_id_indistinguishable (db : Db) (userId cid : Nat) (msg : String)
    (outcome : EngineOutcome) (freshId t : Nat)
    (h : ∀ c ∈ db.conversations, ¬(c.id = cid ∧ c.user_id = userId)) :
    getConversation db userId cid = Except.error notFoundError
    ∧ sendChatMessage db userId ⟨msg, some cid⟩ outcome freshId t
        = (db, Except.error notFoundError)
    ∧ getConversation db userId cid = getConversation ⟨[], []⟩ userId cid
    ∧ notFoundError.statusCode = 404
    ∧ notFoundError.statusCode ≠ 403 := by
  have hf : findOwnedConversation db userId cid = none := by
    unfold findOwnedConversation
    rw [List.find?_eq_none]
    intro c hc hb
    rw [Bool.and_eq_true, beq_iff_eq, beq_iff_eq] at hb
    exact h c hc hb
  refine ⟨?_, ?_, ?_, rfl, by decide⟩
  · unfold getConversation
    rw [hf]
  · simp only [sendChatMessage, hf]
    rfl
  · unfold getConversation
    rw [hf]
    rfl

/-- A store whose only conversation belongs to user 5. -/
def exForeignDb : Db := ⟨[⟨3, 5, some "secret", 0, 0⟩], []⟩

/-- Witness for `c7_foreign_id_indistinguishable`: user 7 asks for user
5's conversation 3. -/
theorem c7_foreign_id_indistinguishable_witness :
    getConversation exForeignDb 7 3 = Except.error notFoundError
    ∧ sendChatMessage exForeignDb 7 ⟨"hi", some 3⟩ EngineOutcome.timeout 9 10
        = (exForeignDb, Except.error notFoundError)
    ∧ getConversation exForeignDb 7 3 = getConversation ⟨[], []⟩ 7 3
    ∧ notFoundError.statusCode = 404
    ∧ notFoundError.statusCode ≠ 403 :=
  c7_foreign_id_indistinguishable exForeignDb 7 3 "hi" EngineOutcome.timeout 9 10
    (by decide)

/-- A store with one untitled conversation owned by user 7 and no
messages: the state before that conversation's first turn. -/
def exFreshDb : Db := ⟨[⟨2, 7, none, 0, 0⟩], []⟩

/-- C5 counterexample: on the first turn of a fresh conversation the
engine fails, yet the conversation's title has already been derived from
the user's utterance — so title derivation happens *before* the engine
is invoked, not only after a successful invocation as claimed. -/
theorem c5_title_set_despite_engine_failure :
    (sendChatMessage exFreshDb 7 ⟨"hello", some 2⟩ (EngineOutcome.failure "boom") 9 10).2
      = Except.error engineFailureError
    ∧ (sendChatMessage exFreshDb 7 ⟨"hello", some 2⟩
        (EngineOutcome.failure "boom") 9 10).1.conversations.map Conversation.title
      = [some "hello"] := by
  exact ⟨rfl, rfl⟩

/-- C5 (amended): title derivation — the truncated copy of the user's
first utterance — happens immediately after the user's message is
stored and *before* the engine is invoked (so it happens even when the
engine then fails); on engine success the assistant's free-text output
is committed after the user message and the conversation's `updated_at`
is advanced in that same final step. -/
theorem c5_title_first_then_success_updates (db : Db) (userId cid : Nat)
    (msg : String) (freshId t before after : Nat) (r : EngineResult) (e : String)
    (conv : Conversation)
    (hfind : findOwnedConversation db userId cid = some conv)
    (htitle : conv.title = none) :
    (∀ c ∈ (sendChatMessage db userId ⟨msg, some cid⟩
              (EngineOutcome.failure e) freshId t).1.conversations,
       c.id = conv.id → c.title = some (msg.take 100))
    ∧ (sendChatMessage db userId ⟨msg, some cid⟩
         (EngineOutcome.success before after r) freshId t).1.messages
        = db.messages ++ [⟨conv.id, "user", msg, t + 1⟩,
                          ⟨conv.id, "assistant", r.finalOutput, t + 2⟩]
    ∧ (∀ c ∈ (sendChatMessage db userId ⟨msg, some cid⟩
                (EngineOutcome.success before after r) freshId t).1.conversations,
       c.id = conv.id → c.updated_at = t + 2 + 1 ∧ c.title = some (msg.take 100)) := by
  have hmt : maybeSetTitle (storeUserMessage db conv msg (t + 1)) conv msg
      = ({ conversations :=
             updateConv db.conversations { conv with title := some (msg.take 100) },
           messages := db.messages ++ [⟨conv.id, "user", msg, t + 1⟩] },
         { conv with title := some (msg.take 100) }) := by
    unfold maybeSetTitle storeUserMessage
    rw [if_pos htitle]
  have hfail : sendChatMessage db userId ⟨msg, some cid⟩
      (EngineOutcome.failure e) freshId t
      = (({ conversations :=
              updateConv db.conversations { conv with title := some (msg.take 100) },
            messages := db.messages ++ [⟨conv.id, "user", msg, t + 1⟩] } : Db),
         Except.error engineFailureError) := by
    rw [sendChat_found_eq db userId cid msg (EngineOutcome.failure e) freshId t conv hfind]
    rw [hmt]
  have hsucc : sendChatMessage db userId ⟨msg, some cid⟩
      (EngineOutcome.success before after r) freshId t
      = (({ conversations :=
              updateConv
                (updateConv db.conversations { conv with title := some (msg.take 100) })
                { conv with title := some (msg.take 100), updated_at := t + 2 + 1 },
            messages := db.messages
              ++ [⟨conv.id, "user", msg, t + 1⟩]
              ++ [⟨conv.id, "assistant", r.finalOutput, t + 2⟩] } : Db),
         Except.ok ⟨r.finalOutput, conv.id, runAgentToolCalls before after r⟩) := by
    rw [sendChat_found_eq db userId cid msg
        (EngineOutcome.success before after r) freshId t conv hfind]
    rw [hmt]
    rfl
  refine ⟨?_, ?_, ?_⟩
  · rw [hfail]
    intro c hc hcid
    have hx := (updateConv_mem db.conversations
      { conv with title := some (msg.take 100) } c hc).1 hcid
    rw [hx]
  · rw [hsucc]
    simp [List.append_assoc]
  · rw [hsucc]
    intro c hc hcid
    have hx := (updateConv_mem _
      { conv with title := some (msg.take 100), updated_at := t + 2 + 1 } c hc).1 hcid
    rw [hx]
    exact ⟨rfl, rfl⟩

/-- Witness for `c5_title_first_then_success_updates` on the fresh store. -/
theorem c5_title_first_then_success_updates_witness :
    (∀ c ∈ (sendChatMessage exFreshDb 7 ⟨"hello", some 2⟩
              (EngineOutcome.failure "boom") 9 10).1.conversations,
       c.id = (⟨2, 7, none, 0, 0⟩ : Conversation).id → c.title = some ("hello".take 100))
    ∧ (sendChatMessage exFreshDb 7 ⟨"hello", some 2⟩
         (EngineOutcome.success 0 1 emptyEngineResult) 9 10).1.messages
        = exFreshDb.messages
            ++ [⟨(⟨2, 7, none, 0, 0⟩ : Conversation).id, "user", "hello", 10 + 1⟩,
                ⟨(⟨2, 7, none, 0, 0⟩ : Conversation).id, "assistant",
                 emptyEngineResult.finalOutput, 10 + 2⟩]
    ∧ (∀ c ∈ (sendChatMessage exFreshDb 7 ⟨"hello", some 2⟩
                (EngineOutcome.success 0 1 emptyEngineResult) 9 10).1.conversations,
       c.id = (⟨2, 7, none, 0, 0⟩ : Conversation).id →
         c.updated_at = 10 + 2 + 1 ∧ c.title = some ("hello".take 100)) :=
  c5_title_first_then_success_updates exFreshDb 7 2 "hello" 9 10 0 1
    emptyEngineResult "boom" ⟨2, 7, none, 0, 0⟩ rfl rfl

/-- C8: the windowed history has length at most `MAX_HISTORY_MESSAGES`,
is sorted ascending by creation time, is empty for a conversation with
no messages, and keeps only most-recent messages: any message of the
conversation left out is no newer than every message kept. -/
theorem c8_window_properties (msgs : List Message) (cid : Nat) :
    (windowHistory msgs cid).length ≤ MAX_HISTORY_MESSAGES
    ∧ List.Sorted (fun a b : Message => a.created_at ≤ b.created_at)
        (windowHistory msgs cid)
    ∧ (msgs.filter (fun m => m.conversation_id == cid) = [] →
        windowHistory msgs cid = [])
    ∧ (∀ m ∈ msgs.filter (fun m => m.conversation_id == cid),
        m ∉ windowHistory msgs cid →
        ∀ mk ∈ windowHistory msgs cid, m.created_at ≤ mk.created_at) := by
  set l := msgs.filter (fun m => m.conversation_id == cid) with hl
  set s := List.insertionSort createdDesc l with hs
  have hsorted : List.Sorted createdDesc s := List.sorted_insertionSort createdDesc l
  have hwin : windowHistory msgs cid = (s.take MAX_HISTORY_MESSAGES).reverse := rfl
  refine ⟨?_, ?_, ?_, ?_⟩
  · rw [hwin, List.length_reverse, List.length_take]
    exact min_le_left _ _
  · rw [hwin]
    have htake : List.Pairwise (fun a b : Message => b.created_at ≤ a.created_at)
        (List.take MAX_HISTORY_MESSAGES s) :=
      List.Pairwise.sublist (List.take_sublist _ _) hsorted
    exact List.pairwise_reverse.mpr htake
  · intro h
    rw [hwin, hs, h]
    rfl
  · intro m hm hnot mk hmk
    have hmem : m ∈ s := by
      rw [hs]
      exact (List.mem_insertionSort createdDesc).mpr hm
    have hnot' : m ∉ s.take MAX_HISTORY_MESSAGES := by
      intro hmt
      exact hnot (by rw [hwin]; exact List.mem_reverse.mpr hmt)
    have hdrop : m ∈ s.drop MAX_HISTORY_MESSAGES := by
      have hsplit := List.take_append_drop MAX_HISTORY_MESSAGES s
      rcases List.mem_append.mp (by rw [hsplit]; exact hmem) with h | h
      · exact absurd h hnot'
      · exact h
    have hmk' : mk ∈ s.take MAX_HISTORY_MESSAGES := by
      rw [hwin] at hmk
      exact List.mem_reverse.mp hmk
    have hp : List.Pairwise createdDesc
        (s.take MAX_HISTORY_MESSAGES ++ s.drop MAX_HISTORY_MESSAGES) := by
      rw [List.take_append_drop]
      exact hsorted
    exact (List.pairwise_append.mp hp).2.2 mk hmk' m hdrop

/-- Witness for `c8_window_properties` on the concrete store. -/
theorem c8_window_properties_witness :
    (windowHistory exDb.messages 1).length ≤ MAX_HISTORY_MESSAGES
    ∧ List.Sorted (fun a b : Message => a.created_at ≤ b.created_at)
        (windowHistory exDb.messages 1)
    ∧ (exDb.messages.filter (fun m => m.conversation_id == 1) = [] →
        windowHistory exDb.messages 1 = [])
    ∧ (∀ m ∈ exDb.messages.filter (fun m => m.conversation_id == 1),
        m ∉ windowHistory exDb.messages 1 →
        ∀ mk ∈ windowHistory exDb.messages 1, m.created_at ≤ mk.created_at) :=
  c8_window_properties exDb.messages 1

/-- C9: the built turn is the history entries in their original order
followed by exactly one new user entry last, and its length is bounded
by `MAX_HISTORY_MESSAGES + 1` whenever the history respects the window
bound. -/
theorem c9_turn_builder (history : List ChatMsg) (message : String)
    (h : history.length ≤ MAX_HISTORY_MESSAGES) :
    buildTurn history message = history ++ [⟨"user", message⟩]
    ∧ (buildTurn history message).length ≤ MAX_HISTORY_MESSAGES + 1
    ∧ (buildTurn history message).getLast? = some ⟨"user", message⟩ := by
  have he : buildTurn history message = history ++ [⟨"user", message⟩] := by
    unfold buildTurn
    cases history with
    | nil => rfl
    | cons a rest =>
        congr 1
        exact List.map_id (a :: rest)
  refine ⟨he, ?_, ?_⟩
  · rw [he, List.length_append]
    simpa using Nat.add_le_add h (Nat.le_refl 1)
  · rw [he]
    exact List.getLast?_concat _

/-- Witness for `c9_turn_builder` at a two-entry history. -/
theorem c9_turn_builder_witness :
    buildTurn [⟨"user", "hi"⟩, ⟨"assistant", "hello"⟩] "buy milk"
      = [⟨"user", "hi"⟩, ⟨"assistant", "hello"⟩] ++ [⟨"user", "buy milk"⟩]
    ∧ (buildTurn [⟨"user", "hi"⟩, ⟨"assistant", "hello"⟩] "buy milk").length
        ≤ MAX_HISTORY_MESSAGES + 1
    ∧ (buildTurn [⟨"user", "hi"⟩, ⟨"assistant", "hello"⟩] "buy milk").getLast?
        = some ⟨"user", "buy milk"⟩ :=
  c9_turn_builder [⟨"user", "hi"⟩, ⟨"assistant", "hello"⟩] "buy milk" (by decide)
